import Mathlib

/-!
Shallow embedding of `src/index.ts` of screen-capture-mcp.

The program is a single-file MCP server that captures the Windows desktop (or a
single window found by title) through PowerShell and returns a PNG.  Pure
computations of the source — the coordinate math of `captureAllScreens`, the
branch structure of the `take_screenshot` handler and of `resizeImage`, the
quote-escaping of `captureWindowByTitle`, and the literal script/option values
handed to `execSync` — are translated directly.  External effects enter as
explicit parameters: PowerShell execution is an oracle (`fail`, `pix`,
`getRect`, the process list), and behaviour of the external `sharp` library
that a statement needs is modelled from the spec where the doc comment says so.
-/

/-- One display surface: `interface ScreenInfo` (src/index.ts), integer pixel
coordinates in the global desktop coordinate space (may be negative). -/
structure ScreenInfo where
  x : Int
  y : Int
  width : Int
  height : Int
deriving DecidableEq

/-- A decoded raster buffer: width/height as the PNG metadata reports them and
the raw bytes.  Equality of two `Image`s is byte-for-byte buffer equality. -/
structure Image where
  width : Int
  height : Int
  data : List Nat
deriving DecidableEq

/-- The options object the source passes to `execSync` in `runPowerShell`
(src/index.ts lines 13-20): `encoding: "utf-8", maxBuffer: 50*1024*1024,
timeout: 15000`. -/
structure ExecSyncOptions where
  encoding : String
  maxBuffer : Nat
  timeoutMs : Nat
deriving DecidableEq

/-- One spawned PowerShell invocation.  The source base64-encodes the script as
UTF-16LE for `-EncodedCommand`; the encoding is a transport detail no claim
depends on, so the call record keeps the script itself next to the `execSync`
options. -/
structure ExecCall where
  script : String
  options : ExecSyncOptions
deriving DecidableEq

/-- `runPowerShell` (src/index.ts lines 13-20) viewed at the exec layer: the
fixed option object it hands to `execSync`, with `timeout: 15000`. -/
def runPowerShellCall (script : String) : ExecCall :=
  { script := script,
    options := { encoding := "utf-8", maxBuffer := 50 * 1024 * 1024, timeoutMs := 15000 } }

/-- The single-quote character, written by code point. -/
def squote : Char := Char.ofNat 39

/-- The double-quote character, written by code point. -/
def dquote : Char := Char.ofNat 34

/-- The backtick character (PowerShell's escape character in double-quoted
strings), written by code point. -/
def btick : Char := Char.ofNat 96

/-- `title.replace(/'/g, "''")` from `captureWindowByTitle`: every single quote
is doubled, all other characters pass through unchanged. -/
def psEscapeQuotesChars : List Char → List Char
  | [] => []
  | c :: cs =>
    if c = squote then squote :: squote :: psEscapeQuotesChars cs
    else c :: psEscapeQuotesChars cs

/-- String wrapper of `psEscapeQuotesChars`: the `safeTitle` of the source. -/
def psEscapeQuotes (t : String) : String := String.mk (psEscapeQuotesChars t.data)

/-- The PowerShell script template of `captureSingleScreen` (src/index.ts),
with the screen's numbers interpolated exactly where the template literal puts
them. -/
def singleScreenScript (s : ScreenInfo) : String :=
  "\nAdd-Type -AssemblyName System.Drawing\n\n$bmp = New-Object System.Drawing.Bitmap(" ++
    toString s.width ++ ", " ++ toString s.height ++
    ")\n$graphics = [System.Drawing.Graphics]::FromImage($bmp)\n$graphics.CopyFromScreen(" ++
    toString s.x ++ ", " ++ toString s.y ++
    ", 0, 0, (New-Object System.Drawing.Size(" ++ toString s.width ++ ", " ++
    toString s.height ++
    ")))\n$graphics.Dispose()\n\n$ms = New-Object System.IO.MemoryStream\n$bmp.Save($ms, [System.Drawing.Imaging.ImageFormat]::Png)\n$bmp.Dispose()\n\n[Convert]::ToBase64String($ms.ToArray())\n$ms.Dispose()\n"

/-- The `Write-Error` statement of the window script, with the already-escaped
title spliced into a DOUBLE-quoted PowerShell string, exactly as the template
literal does: `if (-not $proc) [brace] Write-Error "Window not found:
[safeTitle]"; exit 1 [brace]`. -/
def windowNotFoundStmt (safe : String) : String :=
  "if (-not $proc) \x7b Write-Error \x22Window not found: " ++ safe ++ "\x22; exit 1 \x7d"

/-- The PowerShell script template of `captureWindowByTitle` (src/index.ts),
with `safeTitle` interpolated at its two occurrence sites: inside the
single-quoted `-like` pattern and inside the double-quoted `Write-Error`
message. -/
def windowScript (title : String) : String :=
  "\nAdd-Type -AssemblyName System.Drawing\n\nAdd-Type @\x27\nusing System;\nusing System.Runtime.InteropServices;\npublic class Win32 \x7b\n    [DllImport(\x22user32.dll\x22)]\n    public static extern bool GetWindowRect(IntPtr hWnd, out RECT lpRect);\n\x7d\npublic struct RECT \x7b\n    public int Left; public int Top; public int Right; public int Bottom;\n\x7d\n\x27@\n\n$proc = Get-Process | Where-Object \x7b $_.MainWindowTitle -like \x27*" ++
    psEscapeQuotes title ++
    "*\x27 -and $_.MainWindowHandle -ne 0 \x7d | Select-Object -First 1\n" ++
    windowNotFoundStmt (psEscapeQuotes title) ++
    "\n\n$hwnd = $proc.MainWindowHandle\n$rect = New-Object RECT\n[Win32]::GetWindowRect($hwnd, [ref]$rect) | Out-Null\n\n$width = $rect.Right - $rect.Left\n$height = $rect.Bottom - $rect.Top\n\nif ($width -le 0 -or $height -le 0) \x7b Write-Error \x22Invalid window dimensions\x22; exit 1 \x7d\n\n$bmp = New-Object System.Drawing.Bitmap($width, $height)\n$graphics = [System.Drawing.Graphics]::FromImage($bmp)\n$graphics.CopyFromScreen($rect.Left, $rect.Top, 0, 0, (New-Object System.Drawing.Size($width, $height)))\n$graphics.Dispose()\n\n$ms = New-Object System.IO.MemoryStream\n$bmp.Save($ms, [System.Drawing.Imaging.ImageFormat]::Png)\n$bmp.Dispose()\n\n[Convert]::ToBase64String($ms.ToArray())\n$ms.Dispose()\n"

/-- The exec-layer view of `captureSingleScreen`: it runs its script through
`runPowerShell`, hence with `runPowerShell`'s `execSync` options. -/
def captureSingleScreenCall (s : ScreenInfo) : ExecCall :=
  runPowerShellCall (singleScreenScript s)

/-- The exec-layer view of `captureWindowByTitle`: it runs its script through
`runPowerShell`, hence with `runPowerShell`'s `execSync` options. -/
def captureWindowCall (title : String) : ExecCall :=
  runPowerShellCall (windowScript title)

/-- Lexer for the body of a PowerShell SINGLE-quoted string literal: input is
the character list after the opening quote; a doubled quote denotes a literal
quote, a lone quote closes the literal.  Returns the string's content and the
characters after the closing quote, or `none` if the literal never closes. -/
def psSingleLex : List Char → Option (List Char × List Char)
  | [] => none
  | [c] => if c = squote then some ([], []) else none
  | c :: d :: cs =>
    if c = squote then
      if d = squote then (psSingleLex cs).map (fun r => (squote :: r.1, r.2))
      else some ([], d :: cs)
    else
      (psSingleLex (d :: cs)).map (fun r => (c :: r.1, r.2))

/-- Lexer for the body of a PowerShell DOUBLE-quoted string literal: input is
the character list after the opening quote; a doubled quote or a
backtick-escaped character stays inside the literal, a lone double quote closes
it.  Returns the string's content and the characters after the closing quote —
the latter are what PowerShell parses as code. -/
def psDoubleLex : List Char → Option (List Char × List Char)
  | [] => none
  | [c] => if c = dquote then some ([], []) else none
  | c :: d :: cs =>
    if c = dquote then
      if d = dquote then (psDoubleLex cs).map (fun r => (dquote :: r.1, r.2))
      else some ([], d :: cs)
    else if c = btick then
      (psDoubleLex cs).map (fun r => (d :: r.1, r.2))
    else
      (psDoubleLex (d :: cs)).map (fun r => (c :: r.1, r.2))

/-- The characters following the opening double quote of the `Write-Error`
statement in `windowScript`, for a given raw title: the message prefix, the
escaped title, then the rest of the statement (`"; exit 1` and the closing
brace). -/
def afterWriteErrorQuote (t : String) : List Char :=
  ("Window not found: ").data ++ psEscapeQuotesChars t.data ++ ("\x22; exit 1 \x7d").data

/-- A window title that a caller of the tool can supply: it contains double
quotes and a command, and `psEscapeQuotes` leaves all of it unchanged. -/
def injTitle : String := "\x22; calc; \x22"

/-- One entry of `Get-Process` as the window script consumes it: the
main-window title and the main-window handle. -/
structure ProcInfo where
  mainWindowTitle : String
  mainWindowHandle : Int
deriving DecidableEq

/-- The RECT that `GetWindowRect` fills: left/top/right/bottom. -/
structure WinRect where
  left : Int
  top : Int
  right : Int
  bottom : Int
deriving DecidableEq

/-- The two failure exits of the window script: `Write-Error "Window not
found: ..."` and `Write-Error "Invalid window dimensions"` (spec names:
WindowNotFoundError, InvalidGeometryError). -/
inductive WinError where
  | notFound
  | invalidGeometry
deriving DecidableEq

/-- Wildcard matching of PowerShell `-like`, case-insensitive, with `*`
matching any run and `?` any one character.  (`-like` bracket classes are not
modelled; no statement below depends on them.)  Structural fuel makes the
definition reduce in the kernel; `likeMatch` supplies fuel that is always
sufficient because every step consumes from the pattern or the input. -/
def likeMatchAux : Nat → List Char → List Char → Bool
  | 0, _, _ => false
  | _ + 1, [], s => s.isEmpty
  | fuel + 1, c :: ps, s =>
    if c = '*' then
      likeMatchAux fuel ps s ||
        (match s with
         | [] => false
         | _ :: srest => likeMatchAux fuel (c :: ps) srest)
    else
      match s with
      | [] => false
      | d :: srest =>
        (if c = '?' then true else c.toLower == d.toLower) && likeMatchAux fuel ps srest

/-- PowerShell `-like` on character lists (pattern, then candidate). -/
def likeMatch (p s : List Char) : Bool :=
  likeMatchAux (p.length + s.length + 1) p s

/-- The wildcard pattern the script compares titles against for a raw title:
the single-quoted source reads `*` ++ safeTitle ++ `*`, and un-lexing the
doubled quotes gives back the raw title between the stars
(see `psSingleLex_escape` / `likeArgRegion_lex` below). -/
def likePattern (t : String) : List Char := '*' :: t.data ++ ['*']

/-- The characters after the opening single quote of the `-like` argument in
`windowScript`, for a given raw title. -/
def likeArgRegion (t : String) : List Char :=
  '*' :: psEscapeQuotesChars t.data ++ ('*' :: squote :: (" -and $_.MainWindowHandle -ne 0").data)

/-- The `Where-Object ... | Select-Object -First 1` filter of the window
script: first process whose main-window title `-like`-matches the pattern and
whose handle is nonzero. -/
def findProc (procs : List ProcInfo) (title : String) : Option ProcInfo :=
  procs.find? (fun p =>
    likeMatch (likePattern title) p.mainWindowTitle.data && p.mainWindowHandle != 0)

/-- Semantics of the window-capture script of `captureWindowByTitle`: locate
the process, read its rectangle via `GetWindowRect` (the oracle `getRect`),
reject non-positive dimensions, otherwise produce the bitmap of exactly that
size (pixels from the oracle `pix`). -/
def captureWindowByTitle (getRect : Int → WinRect) (pix : WinRect → List Nat)
    (procs : List ProcInfo) (title : String) : Except WinError Image :=
  match findProc procs title with
  | none => Except.error WinError.notFound
  | some p =>
    let r := getRect p.mainWindowHandle
    let w := r.right - r.left
    let h := r.bottom - r.top
    if w ≤ 0 ∨ h ≤ 0 then Except.error WinError.invalidGeometry
    else Except.ok { width := w, height := h, data := pix r }

/-- `Math.min(...list)` for the nonempty lists the guarded code paths feed it
(`Math.min()` of an empty spread would be Infinity; no statement below reaches
the empty case). -/
def jsMinList : List Int → Int
  | [] => 0
  | x :: xs => xs.foldl min x

/-- `Math.max(...list)` for the nonempty lists the guarded code paths feed it. -/
def jsMaxList : List Int → Int
  | [] => 0
  | x :: xs => xs.foldl max x

/-- `const minX = Math.min(...screens.map((s) => s.x))` of `captureAllScreens`. -/
def minXOf (screens : List ScreenInfo) : Int := jsMinList (screens.map (·.x))

/-- `const minY = Math.min(...screens.map((s) => s.y))` of `captureAllScreens`. -/
def minYOf (screens : List ScreenInfo) : Int := jsMinList (screens.map (·.y))

/-- `const maxX = Math.max(...screens.map((s) => s.x + s.width))`. -/
def maxXOf (screens : List ScreenInfo) : Int := jsMaxList (screens.map (fun s => s.x + s.width))

/-- `const maxY = Math.max(...screens.map((s) => s.y + s.height))`. -/
def maxYOf (screens : List ScreenInfo) : Int := jsMaxList (screens.map (fun s => s.y + s.height))

/-- `const totalWidth = maxX - minX` of `captureAllScreens`. -/
def totalWidthOf (screens : List ScreenInfo) : Int := maxXOf screens - minXOf screens

/-- `const totalHeight = maxY - minY` of `captureAllScreens`. -/
def totalHeightOf (screens : List ScreenInfo) : Int := maxYOf screens - minYOf screens

/-- One element of the `captures` array handed to `sharp().composite`:
`input: captureSingleScreen(screen), left: screen.x - minX, top: screen.y - minY`. -/
structure PlacedCapture where
  input : Image
  left : Int
  top : Int
deriving DecidableEq

/-- What `captureAllScreens` returns, keeping the two source branches apart:
the N=1 early return of the single capture, or the composite of the placed
captures on a `totalWidth` by `totalHeight` canvas. -/
inductive AllOutcome where
  | singleShot (img : Image)
  | composited (canvasWidth canvasHeight : Int) (placements : List PlacedCapture)
deriving DecidableEq

/-- A run of `captureAllScreens`: which screens `captureSingleScreen` was
actually invoked on (in order), and the outcome.  An `Except.error` is the
exception an `execSync` failure throws out of the function. -/
structure AllRun where
  attempted : List ScreenInfo
  result : Except String AllOutcome

/-- Semantics of `captureSingleScreen(screen)`: `runPowerShell` either throws
(the `fail` oracle gives the message — error exit or timeout) or returns the
PNG of a bitmap created with exactly `screen.width` by `screen.height`
(pixels from the `pix` oracle). -/
def captureSingleScreenSem (fail : ScreenInfo → Option String)
    (pix : ScreenInfo → List Nat) (s : ScreenInfo) : Except String Image :=
  match fail s with
  | some e => Except.error e
  | none => Except.ok { width := s.width, height := s.height, data := pix s }

/-- `screens.map((screen) => ({input: captureSingleScreen(screen), left, top}))`
with JavaScript exception semantics: the first throw aborts the map.  Returns
the screens on which `captureSingleScreen` was invoked, and either the built
array or the escaped exception. -/
def captureScreens (fail : ScreenInfo → Option String) (pix : ScreenInfo → List Nat)
    (minX minY : Int) :
    List ScreenInfo → List ScreenInfo × Except String (List PlacedCapture)
  | [] => ([], Except.ok [])
  | s :: rest =>
    match captureSingleScreenSem fail pix s with
    | Except.error e => ([s], Except.error e)
    | Except.ok img =>
      let t := captureScreens fail pix minX minY rest
      (s :: t.1,
       t.2.map (fun ps => { input := img, left := s.x - minX, top := s.y - minY } :: ps))

/-- `captureAllScreens` (src/index.ts lines 58-94): the N=1 early return, else
min/max over the layout, sequential captures, and the composite call tagged
with `totalWidth`/`totalHeight`. -/
def captureAllScreens (fail : ScreenInfo → Option String) (pix : ScreenInfo → List Nat)
    (screens : List ScreenInfo) : AllRun :=
  if screens.length = 1 then
    { attempted := screens,
      result :=
        (captureSingleScreenSem fail pix
          (screens.headD { x := 0, y := 0, width := 0, height := 0 })).map
          AllOutcome.singleShot }
  else
    { attempted := (captureScreens fail pix (minXOf screens) (minYOf screens) screens).1,
      result :=
        (captureScreens fail pix (minXOf screens) (minYOf screens) screens).2.map
          (AllOutcome.composited (totalWidthOf screens) (totalHeightOf screens)) }

/-- Modelled from the spec: stands in for the external PNG encoder of the
`sharp` library (repository code only hands buffers to it).  Used opaquely;
no statement below depends on its internals. -/
def pngEncodeBytes (w h : Int) (d : List Nat) : List Nat :=
  w.natAbs :: h.natAbs :: d

/-- Modelled from the spec: `sharp`'s aspect-ratio-preserving resize with
`withoutEnlargement` followed by `.png()` — output width is the target (never
above the input width), height scales proportionally, bytes are re-encoded.
The repository calls this in the external `sharp` library. -/
def sharpResizePng (targetWidth : Int) (img : Image) : Image :=
  { width := min img.width targetWidth,
    height := if img.width = 0 then img.height
              else img.height * min img.width targetWidth / img.width,
    data := pngEncodeBytes (min img.width targetWidth) img.height img.data }

/-- A run of `resizeImage`: the returned buffer, and whether the `sharp`
`.png()` re-encode pipeline ran (true only on the downscale branch; the other
branch is `return pngBuffer` — the untouched input). -/
structure ResizeRun where
  output : Image
  pngReencoded : Bool
deriving DecidableEq

/-- `resizeImage` (src/index.ts lines 140-152) for an explicit `targetWidth`:
re-reads the metadata width, and only when it is truthy and exceeds the target
does it resize and re-encode; otherwise the input buffer is returned as is.
(JavaScript truthiness: a metadata width of 0/undefined fails the test.) -/
def resizeImageRun (targetWidth : Int) (png : Image) : ResizeRun :=
  if png.width ≠ 0 ∧ targetWidth < png.width then
    { output := sharpResizePng targetWidth png, pngReencoded := true }
  else
    { output := png, pngReencoded := false }

/-- `resizeImage(pngBuffer)` as the handler calls it: the default
`targetWidth = 2560` applied. -/
def resizeImage (png : Image) : ResizeRun := resizeImageRun 2560 png

/-- Modelled from the spec: the external `sharp` create-canvas-and-composite
pipeline; the repository only supplies canvas size and placements, which is
what every statement below reads. -/
def sharpComposite (w h : Int) (ps : List PlacedCapture) : Image :=
  { width := w, height := h,
    data := pngEncodeBytes w h (List.flatten (ps.map (fun p => p.input.data))) }

/-- The buffer `captureAllScreens` resolves to: the single capture itself, or
the `sharp` composite of the placements. -/
def allScreensBuffer (fail : ScreenInfo → Option String) (pix : ScreenInfo → List Nat)
    (screens : List ScreenInfo) : Except String Image :=
  (captureAllScreens fail pix screens).result.map (fun o =>
    match o with
    | AllOutcome.singleShot img => img
    | AllOutcome.composited w h ps => sharpComposite w h ps)

/-- Which branch of the handler ran: the window locator or the all-screens
path. -/
inductive CapturePath where
  | allScreens
  | window (title : String)
deriving DecidableEq

/-- The two kinds of failures the handler's `catch` can see: an error from the
window-capture script, or a thrown capture/exec failure. -/
inductive TopError where
  | windowError (e : WinError)
  | captureError (msg : String)
deriving DecidableEq

/-- JavaScript truthiness of the optional `window_title` argument: `undefined`
and the empty string are falsy. -/
def jsTruthy : Option String → Bool
  | none => false
  | some t => !t.isEmpty

/-- The `take_screenshot` handler (src/index.ts lines 165-180):
`if (window_title) captureWindowByTitle(window_title) else captureAllScreens()`,
then `resizeImage`.  The first component records which branch ran. -/
def takeScreenshotRun (procs : List ProcInfo) (getRect : Int → WinRect)
    (winPix : WinRect → List Nat) (fail : ScreenInfo → Option String)
    (pix : ScreenInfo → List Nat) (screens : List ScreenInfo)
    (windowTitle : Option String) : CapturePath × Except TopError Image :=
  let raw : CapturePath × Except TopError Image :=
    if jsTruthy windowTitle then
      (CapturePath.window (windowTitle.getD ""),
       (captureWindowByTitle getRect winPix procs (windowTitle.getD "")).mapError
         TopError.windowError)
    else
      (CapturePath.allScreens,
       (allScreensBuffer fail pix screens).mapError TopError.captureError)
  (raw.1, raw.2.map (fun png => (resizeImage png).output))

/-- Spec-side maximum of `f` over a surface list, written as the spec reads:
the max over all Ri of f(Ri). -/
def maxOver (f : ScreenInfo → Int) : List ScreenInfo → Int
  | [] => 0
  | [s] => f s
  | s :: rest => max (f s) (maxOver f rest)

/-- Spec-side minimum of `f` over a surface list. -/
def minOver (f : ScreenInfo → Int) : List ScreenInfo → Int
  | [] => 0
  | [s] => f s
  | s :: rest => min (f s) (minOver f rest)

/-- Decidable equality of `Except` values, component-wise. -/
instance exceptDecEq {ε α : Type} [DecidableEq ε] [DecidableEq α] :
    DecidableEq (Except ε α) := fun a b =>
  match a, b with
  | Except.error e1, Except.error e2 =>
    if h : e1 = e2 then Decidable.isTrue (by rw [h])
    else Decidable.isFalse (fun hc => h (Except.error.inj hc))
  | Except.error _, Except.ok _ => Decidable.isFalse (fun hc => Except.noConfusion hc)
  | Except.ok _, Except.error _ => Decidable.isFalse (fun hc => Except.noConfusion hc)
  | Except.ok v1, Except.ok v2 =>
    if h : v1 = v2 then Decidable.isTrue (by rw [h])
    else Decidable.isFalse (fun hc => h (Except.ok.inj hc))

/-- Concrete layout: spec scenario 1, first monitor. -/
def scrA : ScreenInfo := { x := 0, y := 0, width := 1920, height := 1080 }

/-- Concrete layout: spec scenario 1, second monitor. -/
def scrB : ScreenInfo := { x := 1920, y := 0, width := 1920, height := 1080 }

/-- Concrete layout: a third monitor to the right of `scrB`. -/
def scrC : ScreenInfo := { x := 3840, y := 0, width := 1920, height := 1080 }

/-- Concrete layout: spec scenario 2, monitor with negative x. -/
def scrN1 : ScreenInfo := { x := -1920, y := 0, width := 1920, height := 1080 }

/-- Concrete layout: spec scenario 2, larger monitor at the origin. -/
def scrN2 : ScreenInfo := { x := 0, y := 0, width := 2560, height := 1440 }

/-- Concrete layout: a single small monitor. -/
def scrS : ScreenInfo := { x := 0, y := 0, width := 640, height := 480 }

/-- Concrete layout: a tiny monitor used by the handler fixture. -/
def scrTiny : ScreenInfo := { x := 0, y := 0, width := 8, height := 8 }

/-- Capture oracle on which every `runPowerShell` capture succeeds. -/
def failNone : ScreenInfo → Option String := fun _ => none

/-- Capture oracle on which the capture of `scrA` throws. -/
def failAtA : ScreenInfo → Option String :=
  fun s => if s = scrA then some "capture timed out" else none

/-- Capture oracle on which the capture of `scrB` throws. -/
def failAtB : ScreenInfo → Option String :=
  fun s => if s = scrB then some "capture timed out" else none

/-- Pixel oracle returning an empty byte list. -/
def pixZero : ScreenInfo → List Nat := fun _ => []

/-- Pixel oracle returning the byte list `[42]`. -/
def pix42 : ScreenInfo → List Nat := fun _ => [42]

/-- A process list with one windowed process titled `My Notepad`. -/
def procsNotepad : List ProcInfo := [{ mainWindowTitle := "My Notepad", mainWindowHandle := 42 }]

/-- `GetWindowRect` oracle reporting a degenerate (zero-width) rectangle, as
for a minimized window. -/
def rectDegenerate : Int → WinRect := fun _ => { left := 50, top := 50, right := 50, bottom := 80 }

/-- `GetWindowRect` oracle reporting a normal 800 by 600 rectangle. -/
def rectNormal : Int → WinRect := fun _ => { left := 0, top := 0, right := 800, bottom := 600 }

/-- Window pixel oracle returning an empty byte list. -/
def winPixZero : WinRect → List Nat := fun _ => []

/-! ## Supporting lemmas -/

/-- String concatenation concatenates the character lists. -/
theorem strDataAppend (s t : String) : (s ++ t).data = s.data ++ t.data := rfl

/-- Folding `min` commutes with a `min` in the seed. -/
theorem foldl_min_shift :
    ∀ (xs : List Int) (a b : Int), xs.foldl min (min a b) = min a (xs.foldl min b) := by
  intro xs
  induction xs with
  | nil => intro a b; rfl
  | cons c xs ih =>
    intro a b
    simp only [List.foldl_cons]
    rw [min_assoc]
    exact ih a (min b c)

/-- Folding `max` commutes with a `max` in the seed. -/
theorem foldl_max_shift :
    ∀ (xs : List Int) (a b : Int), xs.foldl max (max a b) = max a (xs.foldl max b) := by
  intro xs
  induction xs with
  | nil => intro a b; rfl
  | cons c xs ih =>
    intro a b
    simp only [List.foldl_cons]
    rw [max_assoc]
    exact ih a (max b c)

/-- A `min`-fold is bounded by its seed. -/
theorem foldl_min_le_init : ∀ (xs : List Int) (a : Int), xs.foldl min a ≤ a := by
  intro xs
  induction xs with
  | nil => intro a; exact le_refl a
  | cons c xs ih =>
    intro a
    simp only [List.foldl_cons]
    exact le_trans (ih (min a c)) (min_le_left a c)

/-- A `min`-fold is bounded by every list element. -/
theorem foldl_min_le_mem :
    ∀ (xs : List Int) (a y : Int), y ∈ xs → xs.foldl min a ≤ y := by
  intro xs
  induction xs with
  | nil => intro a y hy; exact absurd hy (List.not_mem_nil y)
  | cons c xs ih =>
    intro a y hy
    simp only [List.foldl_cons]
    rcases List.mem_cons.mp hy with h | h
    · subst h
      exact le_trans (foldl_min_le_init xs (min a y)) (min_le_right a y)
    · exact ih (min a c) y h

/-- A `max`-fold dominates its seed. -/
theorem init_le_foldl_max : ∀ (xs : List Int) (a : Int), a ≤ xs.foldl max a := by
  intro xs
  induction xs with
  | nil => intro a; exact le_refl a
  | cons c xs ih =>
    intro a
    simp only [List.foldl_cons]
    exact le_trans (le_max_left a c) (ih (max a c))

/-- A `max`-fold dominates every list element. -/
theorem mem_le_foldl_max :
    ∀ (xs : List Int) (a y : Int), y ∈ xs → y ≤ xs.foldl max a := by
  intro xs
  induction xs with
  | nil => intro a y hy; exact absurd hy (List.not_mem_nil y)
  | cons c xs ih =>
    intro a y hy
    simp only [List.foldl_cons]
    rcases List.mem_cons.mp hy with h | h
    · subst h
      exact le_trans (le_max_right a y) (init_le_foldl_max xs (max a y))
    · exact ih (max a c) y h

/-- `Math.min(...l)` is a lower bound of every element of a nonempty list. -/
theorem jsMinList_le (l : List Int) (y : Int) (hy : y ∈ l) : jsMinList l ≤ y := by
  cases l with
  | nil => exact absurd hy (List.not_mem_nil y)
  | cons x xs =>
    show xs.foldl min x ≤ y
    rcases List.mem_cons.mp hy with h | h
    · subst h; exact foldl_min_le_init xs y
    · exact foldl_min_le_mem xs x y h

/-- `Math.max(...l)` is an upper bound of every element of a nonempty list. -/
theorem le_jsMaxList (l : List Int) (y : Int) (hy : y ∈ l) : y ≤ jsMaxList l := by
  cases l with
  | nil => exact absurd hy (List.not_mem_nil y)
  | cons x xs =>
    show y ≤ xs.foldl max x
    rcases List.mem_cons.mp hy with h | h
    · subst h; exact init_le_foldl_max xs y
    · exact mem_le_foldl_max xs x y h

/-- On a nonempty surface list, the code's `Math.min` over mapped values is the
spec's pointwise minimum. -/
theorem jsMinList_map_eq_minOver (f : ScreenInfo → Int) :
    ∀ (l : List ScreenInfo), l ≠ [] → jsMinList (l.map f) = minOver f l := by
  intro l
  induction l with
  | nil => intro h; exact absurd rfl h
  | cons s rest ih =>
    intro _
    cases rest with
    | nil => rfl
    | cons b r =>
      have ihr := ih (List.cons_ne_nil b r)
      have e1 : jsMinList ((s :: b :: r).map f) = (r.map f).foldl min (min (f s) (f b)) := by
        simp [jsMinList]
      have e2 : jsMinList ((b :: r).map f) = (r.map f).foldl min (f b) := by
        simp [jsMinList]
      have e3 : minOver f (s :: b :: r) = min (f s) (minOver f (b :: r)) := by
        simp [minOver]
      rw [e1, foldl_min_shift, ← e2, ihr, ← e3]

/-- On a nonempty surface list, the code's `Math.max` over mapped values is the
spec's pointwise maximum. -/
theorem jsMaxList_map_eq_maxOver (f : ScreenInfo → Int) :
    ∀ (l : List ScreenInfo), l ≠ [] → jsMaxList (l.map f) = maxOver f l := by
  intro l
  induction l with
  | nil => intro h; exact absurd rfl h
  | cons s rest ih =>
    intro _
    cases rest with
    | nil => rfl
    | cons b r =>
      have ihr := ih (List.cons_ne_nil b r)
      have e1 : jsMaxList ((s :: b :: r).map f) = (r.map f).foldl max (max (f s) (f b)) := by
        simp [jsMaxList]
      have e2 : jsMaxList ((b :: r).map f) = (r.map f).foldl max (f b) := by
        simp [jsMaxList]
      have e3 : maxOver f (s :: b :: r) = max (f s) (maxOver f (b :: r)) := by
        simp [maxOver]
      rw [e1, foldl_max_shift, ← e2, ihr, ← e3]

/-- Quote-escaping distributes over concatenation. -/
theorem psEscapeQuotesChars_append (a b : List Char) :
    psEscapeQuotesChars (a ++ b) = psEscapeQuotesChars a ++ psEscapeQuotesChars b := by
  induction a with
  | nil => rfl
  | cons c cs ih =>
    by_cases hc : c = squote
    · simp [psEscapeQuotesChars, hc, ih]
    · simp [psEscapeQuotesChars, hc, ih]

/-- Round trip of the source's escaping through PowerShell single-quote lexing:
for any raw character list, the escaped text followed by a closing quote lexes
back to exactly the raw text, with lexing stopping at that quote (provided the
following character is not itself a quote, which would instead be read as a
doubled quote). -/
theorem psSingleLex_escape :
    ∀ (cs rest : List Char), rest.head? ≠ some squote →
      psSingleLex (psEscapeQuotesChars cs ++ squote :: rest) = some (cs, rest) := by
  intro cs
  induction cs with
  | nil =>
    intro rest hr
    cases rest with
    | nil => simp [psEscapeQuotesChars, psSingleLex]
    | cons r rs =>
      have hrne : r ≠ squote := fun h => hr (by rw [h]; rfl)
      simp [psEscapeQuotesChars, psSingleLex, hrne]
  | cons c cs ih =>
    intro rest hr
    by_cases hc : c = squote
    · subst hc
      have e1 : psEscapeQuotesChars (squote :: cs) ++ squote :: rest =
          squote :: squote :: (psEscapeQuotesChars cs ++ squote :: rest) := by
        simp [psEscapeQuotesChars]
      rw [e1]
      simp only [psSingleLex, if_pos rfl]
      rw [ih rest hr]
      rfl
    · have e1 : psEscapeQuotesChars (c :: cs) ++ squote :: rest =
          c :: (psEscapeQuotesChars cs ++ squote :: rest) := by
        simp [psEscapeQuotesChars, hc]
      rw [e1]
      cases hE : psEscapeQuotesChars cs ++ squote :: rest with
      | nil => exact absurd hE (by simp)
      | cons d ds =>
        simp only [psSingleLex, if_neg hc]
        rw [← hE, ih rest hr]
        rfl

/-- The single-quoted `-like` argument of the window script lexes to the
star-wrapped raw title: the doubled quotes produced by the escaping read back
as the raw title, and the literal closes exactly before the ` -and` that
follows in the script. -/
theorem likeArgRegion_lex (t : String) :
    psSingleLex (likeArgRegion t) =
      some (likePattern t, (" -and $_.MainWindowHandle -ne 0").data) := by
  have hstar : ('*' : Char) ≠ squote := by decide
  have e1 : likeArgRegion t =
      psEscapeQuotesChars ('*' :: t.data ++ ['*']) ++
        squote :: (" -and $_.MainWindowHandle -ne 0").data := by
    simp [likeArgRegion, psEscapeQuotesChars, psEscapeQuotesChars_append, hstar]
  rw [e1, psSingleLex_escape ('*' :: t.data ++ ['*']) _ (by decide)]
  rfl

/-- The `Write-Error` statement of the window script, as character data, is the
fixed command prefix up to its opening double quote followed by
`afterWriteErrorQuote` — so `psDoubleLex (afterWriteErrorQuote t)` is exactly
how PowerShell reads that double-quoted message for raw title `t`. -/
theorem windowNotFoundStmt_data (t : String) :
    (windowNotFoundStmt (psEscapeQuotes t)).data =
      ("if (-not $proc) \x7b Write-Error \x22").data ++ afterWriteErrorQuote t := by
  show (("if (-not $proc) \x7b Write-Error \x22Window not found: " ++ psEscapeQuotes t) ++
      "\x22; exit 1 \x7d").data = _
  rw [strDataAppend, strDataAppend]
  show ("if (-not $proc) \x7b Write-Error \x22Window not found: ").data ++
      psEscapeQuotesChars t.data ++ ("\x22; exit 1 \x7d").data = _
  rw [afterWriteErrorQuote]
  rw [show ("if (-not $proc) \x7b Write-Error \x22Window not found: ").data =
      ("if (-not $proc) \x7b Write-Error \x22").data ++ ("Window not found: ").data from by decide]
  simp [List.append_assoc]

/-- Inverting the multi-surface branch of `captureAllScreens`: a composited
outcome pins the canvas dimensions to `totalWidth`/`totalHeight` and the
placement list to the successful `captureScreens` result. -/
theorem captureAllScreens_composited (fail : ScreenInfo → Option String)
    (pix : ScreenInfo → List Nat) (screens : List ScreenInfo)
    (h1 : screens.length ≠ 1) (w h : Int) (ps : List PlacedCapture)
    (hres : (captureAllScreens fail pix screens).result =
      Except.ok (AllOutcome.composited w h ps)) :
    w = totalWidthOf screens ∧ h = totalHeightOf screens ∧
      (captureScreens fail pix (minXOf screens) (minYOf screens) screens).2 =
        Except.ok ps := by
  unfold captureAllScreens at hres
  rw [if_neg h1] at hres
  dsimp at hres
  rcases hc : (captureScreens fail pix (minXOf screens) (minYOf screens) screens).2 with e | l
  · rw [hc] at hres
    simp [Except.map] at hres
  · rw [hc] at hres
    simp [Except.map, AllOutcome.composited.injEq] at hres
    obtain ⟨hw, hh, hl⟩ := hres
    exact ⟨hw.symm, hh.symm, by rw [hl]⟩

/-- A successful `captureScreens` pass pairs each screen, in order, with a
placement whose image has exactly the screen's dimensions and whose offset is
the screen's position minus the given minimum; with the given bounds on the
screens, each placement is inside the `W` by `H` canvas. -/
theorem captureScreens_ok_forall₂ (fail : ScreenInfo → Option String)
    (pix : ScreenInfo → List Nat) (mX mY W H : Int) :
    ∀ (ss : List ScreenInfo) (ps : List PlacedCapture),
      (∀ s ∈ ss, mX ≤ s.x ∧ s.x + s.width ≤ mX + W ∧ mY ≤ s.y ∧ s.y + s.height ≤ mY + H) →
      (captureScreens fail pix mX mY ss).2 = Except.ok ps →
      List.Forall₂ (fun s p =>
        p.left = s.x - mX ∧ p.top = s.y - mY ∧ 0 ≤ p.left ∧ 0 ≤ p.top ∧
        p.left + p.input.width ≤ W ∧ p.top + p.input.height ≤ H) ss ps := by
  intro ss
  induction ss with
  | nil =>
    intro ps _ hres
    simp [captureScreens] at hres
    subst hres
    exact List.Forall₂.nil
  | cons s rest ih =>
    intro ps hb hres
    simp only [captureScreens] at hres
    cases hf : fail s with
    | some e =>
      rw [show captureSingleScreenSem fail pix s = Except.error e from by
        simp [captureSingleScreenSem, hf]] at hres
      simp at hres
    | none =>
      rw [show captureSingleScreenSem fail pix s =
          Except.ok { width := s.width, height := s.height, data := pix s } from by
        simp [captureSingleScreenSem, hf]] at hres
      dsimp at hres
      rcases ht : (captureScreens fail pix mX mY rest).2 with e | l
      · rw [ht] at hres
        simp [Except.map] at hres
      · rw [ht] at hres
        simp [Except.map] at hres
        rw [← hres]
        refine List.Forall₂.cons ?_ (ih l (fun s2 hs2 => hb s2 (List.mem_cons_of_mem s hs2)) ht)
        obtain ⟨hb1, hb2, hb3, hb4⟩ := hb s (List.mem_cons_self s rest)
        refine ⟨rfl, rfl, ?_, ?_, ?_, ?_⟩ <;> dsimp <;> omega

/-! ## Claims -/

/-- C1: for every multi-surface capture of N ≥ 2 surfaces whose compositing
succeeds, the composited canvas dimensions equal
(max over i of (Ri.x + Ri.width) − min over i of Ri.x,
 max over i of (Ri.y + Ri.height) − min over i of Ri.y). -/
theorem C1_canvas_dimensions (fail : ScreenInfo → Option String)
    (pix : ScreenInfo → List Nat) (screens : List ScreenInfo)
    (h2 : 2 ≤ screens.length) (w h : Int) (ps : List PlacedCapture)
    (hres : (captureAllScreens fail pix screens).result =
      Except.ok (AllOutcome.composited w h ps)) :
    w = maxOver (fun s => s.x + s.width) screens - minOver (fun s => s.x) screens ∧
    h = maxOver (fun s => s.y + s.height) screens - minOver (fun s => s.y) screens := by
  have h1 : screens.length ≠ 1 := by omega
  have hne : screens ≠ [] := by
    cases screens with
    | nil => simp at h2
    | cons a l => simp
  obtain ⟨hw, hh, -⟩ := captureAllScreens_composited fail pix screens h1 w h ps hres
  constructor
  · rw [hw]
    unfold totalWidthOf maxXOf minXOf
    rw [jsMaxList_map_eq_maxOver _ _ hne, jsMinList_map_eq_minOver _ _ hne]
  · rw [hh]
    unfold totalHeightOf maxYOf minYOf
    rw [jsMaxList_map_eq_maxOver _ _ hne, jsMinList_map_eq_minOver _ _ hne]

/-- Witness for C1 at spec scenario 2: monitors at (-1920,0,1920,1080) and
(0,0,2560,1440) composite to a 4480 by 1440 canvas. -/
theorem C1_witness :
    (4480 : Int) = maxOver (fun s => s.x + s.width) [scrN1, scrN2] -
      minOver (fun s => s.x) [scrN1, scrN2] ∧
    (1440 : Int) = maxOver (fun s => s.y + s.height) [scrN1, scrN2] -
      minOver (fun s => s.y) [scrN1, scrN2] :=
  C1_canvas_dimensions failNone pixZero [scrN1, scrN2] (by decide) 4480 1440
    [{ input := { width := 1920, height := 1080, data := [] }, left := 0, top := 0 },
     { input := { width := 2560, height := 1440, data := [] }, left := 1920, top := 0 }]
    (by rfl)

/-- C2, evaluated at the failing input `injTitle` (a title containing double
quotes and a command): the source's escaping — doubling single quotes — leaves
the title unchanged, and in the double-quoted `Write-Error "Window not found:
..."` statement of the window script (see `windowNotFoundStmt_data`) the
title's first `"` closes the string early, so the parsed message is not the
intended literal message and `; calc; ` lands outside the string literal, in
PowerShell command position.  The control-syntax characters of the search
string are therefore not all neutralized. -/
theorem C2_quote_reaches_command_position :
    psEscapeQuotes injTitle = injTitle ∧
    (psDoubleLex (afterWriteErrorQuote injTitle)).map Prod.snd =
      some (("; calc; \x22\x22; exit 1 \x7d").data) ∧
    (psDoubleLex (afterWriteErrorQuote injTitle)).map Prod.fst ≠
      some (("Window not found: " ++ injTitle).data) := by
  refine ⟨by decide, by decide, by decide⟩

/-- C3 counterexample: with two screens where the capture of the first one
throws, the second screen is never attempted — `screens.map` aborts at the
first exception, so a failure of surface i does prevent attempting surface
i+1. -/
theorem C3_counterexample :
    captureSingleScreenSem failAtA pixZero scrA = Except.error "capture timed out" ∧
    scrB ∉ (captureAllScreens failAtA pixZero [scrA, scrB]).attempted := by
  refine ⟨by rfl, by decide⟩

/-- C3 as the code actually behaves: in a multi-surface request, the first
surface whose capture throws aborts the sequential `map` — all earlier
surfaces and the failing one are attempted, no later surface is attempted, and
the whole request fails with that surface's error. -/
theorem C3_abort_on_failure (fail : ScreenInfo → Option String)
    (pix : ScreenInfo → List Nat) (pre post : List ScreenInfo) (si : ScreenInfo)
    (e : String) (hpre : ∀ s ∈ pre, fail s = none) (hfail : fail si = some e)
    (hlen : (pre ++ si :: post).length ≠ 1) :
    (captureAllScreens fail pix (pre ++ si :: post)).attempted = pre ++ [si] ∧
    (captureAllScreens fail pix (pre ++ si :: post)).result = Except.error e := by
  have key : ∀ (mX mY : Int) (pre2 : List ScreenInfo), (∀ s ∈ pre2, fail s = none) →
      captureScreens fail pix mX mY (pre2 ++ si :: post) = (pre2 ++ [si], Except.error e) := by
    intro mX mY pre2
    induction pre2 with
    | nil =>
      intro _
      simp only [List.nil_append, captureScreens]
      rw [show captureSingleScreenSem fail pix si = Except.error e from by
        simp [captureSingleScreenSem, hfail]]
    | cons a pre2 ih =>
      intro hp
      have hsem : captureSingleScreenSem fail pix a =
          Except.ok { width := a.width, height := a.height, data := pix a } := by
        simp [captureSingleScreenSem, hp a (List.mem_cons_self a pre2)]
      simp only [List.cons_append, captureScreens, hsem]
      simp only [List.append_eq]
      rw [ih (fun s hs => hp s (List.mem_cons_of_mem a hs))]
      rfl
  unfold captureAllScreens
  rw [if_neg hlen]
  rw [key _ _ pre hpre]
  exact ⟨rfl, rfl⟩

/-- Witness for `C3_abort_on_failure`: screens 1,2,3 with screen 2 failing —
screens 1 and 2 are attempted, screen 3 is not, the request fails. -/
theorem C3_abort_witness :
    (captureAllScreens failAtB pixZero [scrA, scrB, scrC]).attempted = [scrA, scrB] ∧
    (captureAllScreens failAtB pixZero [scrA, scrB, scrC]).result =
      Except.error "capture timed out" :=
  C3_abort_on_failure failAtB pixZero [scrA] [scrC] scrB "capture timed out"
    (by decide) (by rfl) (by decide)

/-- C4: in a successful multi-surface composite, surface i's image is placed
at offset (Ri.x − minX, Ri.y − minY); every offset is ≥ (0,0) and every placed
image (whose size is its surface's size) lies within the canvas bounds. -/
theorem C4_placement (fail : ScreenInfo → Option String) (pix : ScreenInfo → List Nat)
    (screens : List ScreenInfo) (h2 : 2 ≤ screens.length) (w h : Int)
    (ps : List PlacedCapture)
    (hres : (captureAllScreens fail pix screens).result =
      Except.ok (AllOutcome.composited w h ps)) :
    List.Forall₂ (fun s p =>
      p.left = s.x - minXOf screens ∧ p.top = s.y - minYOf screens ∧
      0 ≤ p.left ∧ 0 ≤ p.top ∧
      p.left + p.input.width ≤ w ∧ p.top + p.input.height ≤ h) screens ps := by
  have h1 : screens.length ≠ 1 := by omega
  obtain ⟨hw, hh, hcap⟩ := captureAllScreens_composited fail pix screens h1 w h ps hres
  subst hw
  subst hh
  apply captureScreens_ok_forall₂ fail pix (minXOf screens) (minYOf screens)
    (totalWidthOf screens) (totalHeightOf screens) screens ps ?_ hcap
  intro s hs
  have hx1 : minXOf screens ≤ s.x := by
    unfold minXOf
    exact jsMinList_le _ _ (List.mem_map_of_mem (fun s => s.x) hs)
  have hx2 : s.x + s.width ≤ maxXOf screens := by
    unfold maxXOf
    exact le_jsMaxList _ _ (List.mem_map_of_mem (fun s => s.x + s.width) hs)
  have hy1 : minYOf screens ≤ s.y := by
    unfold minYOf
    exact jsMinList_le _ _ (List.mem_map_of_mem (fun s => s.y) hs)
  have hy2 : s.y + s.height ≤ maxYOf screens := by
    unfold maxYOf
    exact le_jsMaxList _ _ (List.mem_map_of_mem (fun s => s.y + s.height) hs)
  have ew : totalWidthOf screens = maxXOf screens - minXOf screens := rfl
  have eh : totalHeightOf screens = maxYOf screens - minYOf screens := rfl
  refine ⟨hx1, ?_, hy1, ?_⟩ <;> omega

/-- Witness for C4 at spec scenario 1: monitors (0,0,1920,1080) and
(1920,0,1920,1080) — placements (0,0) and (1920,0) inside the 3840 by 1080
canvas. -/
theorem C4_witness :
    List.Forall₂ (fun (s : ScreenInfo) (p : PlacedCapture) =>
      p.left = s.x - minXOf [scrA, scrB] ∧ p.top = s.y - minYOf [scrA, scrB] ∧
      0 ≤ p.left ∧ 0 ≤ p.top ∧
      p.left + p.input.width ≤ 3840 ∧ p.top + p.input.height ≤ 1080)
      [scrA, scrB]
      [{ input := { width := 1920, height := 1080, data := [] }, left := 0, top := 0 },
       { input := { width := 1920, height := 1080, data := [] }, left := 1920, top := 0 }] :=
  C4_placement failNone pixZero [scrA, scrB] (by decide) 3840 1080
    [{ input := { width := 1920, height := 1080, data := [] }, left := 0, top := 0 },
     { input := { width := 1920, height := 1080, data := [] }, left := 1920, top := 0 }]
    (by rfl)

/-- C5: when exactly one surface is enumerated, `captureAllScreens` returns
that surface's capture unchanged (byte-for-byte the same buffer), only that
surface is attempted, and no composited outcome can be produced. -/
theorem C5_single_screen (fail : ScreenInfo → Option String)
    (pix : ScreenInfo → List Nat) (s : ScreenInfo) :
    (captureAllScreens fail pix [s]).result =
      (captureSingleScreenSem fail pix s).map AllOutcome.singleShot ∧
    (captureAllScreens fail pix [s]).attempted = [s] ∧
    ∀ (w h : Int) (ps : List PlacedCapture),
      (captureAllScreens fail pix [s]).result ≠
        Except.ok (AllOutcome.composited w h ps) := by
  refine ⟨rfl, rfl, ?_⟩
  intro w h ps hc
  have h0 : (captureAllScreens fail pix [s]).result =
      (captureSingleScreenSem fail pix s).map AllOutcome.singleShot := rfl
  rw [h0] at hc
  cases hsem : captureSingleScreenSem fail pix s with
  | error e => rw [hsem] at hc; simp [Except.map] at hc
  | ok img => rw [hsem] at hc; simp [Except.map] at hc

/-- Witness for C5: a single 640 by 480 screen — the result is exactly the
single capture, no compositing. -/
theorem C5_witness :
    (captureAllScreens failNone pix42 [scrS]).result =
      Except.ok (AllOutcome.singleShot { width := 640, height := 480, data := [42] }) ∧
    (captureAllScreens failNone pix42 [scrS]).attempted = [scrS] ∧
    (captureAllScreens failNone pix42 [scrS]).result ≠
      Except.ok (AllOutcome.composited 640 480 []) := by
  obtain ⟨h1, h2, h3⟩ := C5_single_screen failNone pix42 scrS
  exact ⟨h1.trans (by rfl), h2, h3 640 480 []⟩

/-- C6: the normalized output's width never exceeds the default 2560 ceiling,
and an image whose width is at or below the ceiling is returned unscaled (the
very same buffer), so no upscaling ever occurs. -/
theorem C6_width_ceiling (png : Image) :
    (resizeImage png).output.width ≤ 2560 ∧
    (png.width ≤ 2560 → (resizeImage png).output = png) := by
  by_cases hc : png.width ≠ 0 ∧ (2560 : Int) < png.width
  · have h1 : (resizeImage png).output = sharpResizePng 2560 png := by
      simp [resizeImage, resizeImageRun, hc]
    rw [h1]
    refine ⟨min_le_right _ _, ?_⟩
    intro hle
    exact absurd hc.2 (not_lt.mpr hle)
  · have h1 : (resizeImage png).output = png := by
      simp [resizeImage, resizeImageRun, hc]
    rw [h1]
    refine ⟨?_, fun _ => rfl⟩
    rcases not_and_or.mp hc with h0 | h0
    · have hz : png.width = 0 := not_not.mp h0
      omega
    · exact not_lt.mp h0

/-- Witness for C6: a 1024 by 768 image is returned unscaled and within the
ceiling. -/
theorem C6_witness :
    (resizeImage { width := 1024, height := 768, data := [9] }).output =
      { width := 1024, height := 768, data := [9] } ∧
    (resizeImage { width := 1024, height := 768, data := [9] }).output.width ≤ 2560 :=
  ⟨(C6_width_ceiling { width := 1024, height := 768, data := [9] }).2 (by decide),
   (C6_width_ceiling { width := 1024, height := 768, data := [9] }).1⟩

/-- C7 counterexample: a 680 by 480 image does not need downscaling and is
returned as the untouched input buffer — the `sharp` `.png()` re-encode
pipeline does not run, refuting "always re-encodes before returning". -/
theorem C7_counterexample :
    (resizeImage { width := 680, height := 480, data := [3] }).pngReencoded = false ∧
    (resizeImage { width := 680, height := 480, data := [3] }).output =
      { width := 680, height := 480, data := [3] } :=
  ⟨rfl, rfl⟩

/-- C7 as the code actually behaves: the normalizer re-encodes to PNG exactly
when the metadata width exceeds the 2560 ceiling; otherwise the input buffer
is returned unchanged with no re-encode. -/
theorem C7_reencode_only_on_downscale (png : Image) :
    ((resizeImage png).pngReencoded = true ↔ 2560 < png.width) ∧
    ((resizeImage png).pngReencoded = false → (resizeImage png).output = png) := by
  by_cases hc : png.width ≠ 0 ∧ (2560 : Int) < png.width
  · have e : resizeImage png =
        { output := sharpResizePng 2560 png, pngReencoded := true } := by
      simp [resizeImage, resizeImageRun, hc]
    rw [e]
    exact ⟨⟨fun _ => hc.2, fun _ => rfl⟩, by intro hfalse; simp at hfalse⟩
  · have e : resizeImage png = { output := png, pngReencoded := false } := by
      simp [resizeImage, resizeImageRun, hc]
    rw [e]
    refine ⟨⟨?_, ?_⟩, fun _ => rfl⟩
    · intro hfalse; simp at hfalse
    · intro hlt
      exact absurd ⟨by omega, hlt⟩ hc

/-- Witness for `C7_reencode_only_on_downscale`: a 680 by 480 image — no
re-encode, buffer returned unchanged. -/
theorem C7_witness :
    ((resizeImage { width := 680, height := 480, data := [7] }).pngReencoded = true ↔
      (2560 : Int) < 680) ∧
    (resizeImage { width := 680, height := 480, data := [7] }).output =
      { width := 680, height := 480, data := [7] } :=
  ⟨(C7_reencode_only_on_downscale { width := 680, height := 480, data := [7] }).1,
   (C7_reencode_only_on_downscale { width := 680, height := 480, data := [7] }).2 rfl⟩

/-- C8: whenever the matched window's rectangle has non-positive width or
height, window capture fails with the invalid-geometry error; and any image
window capture does produce has strictly positive width and height — never a
zero-size image. -/
theorem C8_window_geometry (getRect : Int → WinRect) (pix : WinRect → List Nat)
    (procs : List ProcInfo) (title : String) :
    (∀ p, findProc procs title = some p →
      ((getRect p.mainWindowHandle).right - (getRect p.mainWindowHandle).left ≤ 0 ∨
       (getRect p.mainWindowHandle).bottom - (getRect p.mainWindowHandle).top ≤ 0) →
      captureWindowByTitle getRect pix procs title =
        Except.error WinError.invalidGeometry) ∧
    (∀ img, captureWindowByTitle getRect pix procs title = Except.ok img →
      0 < img.width ∧ 0 < img.height) := by
  constructor
  · intro p hp hgeo
    unfold captureWindowByTitle
    rw [hp]
    dsimp
    rw [if_pos hgeo]
  · intro img himg
    unfold captureWindowByTitle at himg
    cases hp : findProc procs title with
    | none => rw [hp] at himg; simp at himg
    | some p =>
      rw [hp] at himg
      dsimp at himg
      by_cases hgeo : (getRect p.mainWindowHandle).right -
            (getRect p.mainWindowHandle).left ≤ 0 ∨
          (getRect p.mainWindowHandle).bottom - (getRect p.mainWindowHandle).top ≤ 0
      · rw [if_pos hgeo] at himg
        simp at himg
      · rw [if_neg hgeo] at himg
        have himg2 := Except.ok.inj himg
        rw [← himg2]
        push_neg at hgeo
        dsimp only
        exact ⟨by omega, by omega⟩

/-- Witness for C8: searching `notepad` finds the `My Notepad` process
(case-insensitive substring); with a degenerate zero-width rectangle the
capture fails with the invalid-geometry error, and with a normal 800 by 600
rectangle the produced image has positive dimensions. -/
theorem C8_witness :
    captureWindowByTitle rectDegenerate winPixZero procsNotepad "notepad" =
      Except.error WinError.invalidGeometry ∧
    (0 < (800 : Int) ∧ 0 < (600 : Int)) :=
  ⟨(C8_window_geometry rectDegenerate winPixZero procsNotepad "notepad").1
      { mainWindowTitle := "My Notepad", mainWindowHandle := 42 } (by rfl) (by decide),
   (C8_window_geometry rectNormal winPixZero procsNotepad "notepad").2
      { width := 800, height := 600, data := [] } (by rfl)⟩

/-- C9: every blocking capture call — per-screen capture and window capture —
goes through `runPowerShell`, whose `execSync` options carry the hard
wall-clock timeout of 15000 ms ≈ 15 s. -/
theorem C9_capture_timeout_15s :
    (∀ s : ScreenInfo, (captureSingleScreenCall s).options.timeoutMs = 15000) ∧
    (∀ t : String, (captureWindowCall t).options.timeoutMs = 15000) :=
  ⟨fun _ => rfl, fun _ => rfl⟩

/-- C10: a request with an empty `window_title` behaves exactly like a request
with the argument absent — the all-screens path is taken, the window locator
is never invoked, and the result can never be a window-locator error (in
particular not the window-not-found error). -/
theorem C10_empty_title_all_screens (procs : List ProcInfo) (getRect : Int → WinRect)
    (winPix : WinRect → List Nat) (fail : ScreenInfo → Option String)
    (pix : ScreenInfo → List Nat) (screens : List ScreenInfo) :
    takeScreenshotRun procs getRect winPix fail pix screens (some "") =
      takeScreenshotRun procs getRect winPix fail pix screens none ∧
    (takeScreenshotRun procs getRect winPix fail pix screens (some "")).1 =
      CapturePath.allScreens ∧
    ∀ e : WinError,
      (takeScreenshotRun procs getRect winPix fail pix screens (some "")).2 ≠
        Except.error (TopError.windowError e) := by
  refine ⟨rfl, rfl, ?_⟩
  intro e hc
  have h0 : (takeScreenshotRun procs getRect winPix fail pix screens (some "")).2 =
      ((allScreensBuffer fail pix screens).mapError TopError.captureError).map
        (fun png => (resizeImage png).output) := rfl
  rw [h0] at hc
  cases hab : allScreensBuffer fail pix screens with
  | error m => rw [hab] at hc; simp [Except.mapError, Except.map] at hc
  | ok img => rw [hab] at hc; simp [Except.mapError, Except.map] at hc

/-- Witness for C10 with concrete oracles and a one-screen layout: the empty
title request equals the absent-title request, runs the all-screens path, and
does not produce the window-not-found error. -/
theorem C10_witness :
    takeScreenshotRun [] rectNormal winPixZero failNone pix42 [scrTiny] (some "") =
      takeScreenshotRun [] rectNormal winPixZero failNone pix42 [scrTiny] none ∧
    (takeScreenshotRun [] rectNormal winPixZero failNone pix42 [scrTiny] (some "")).1 =
      CapturePath.allScreens ∧
    (takeScreenshotRun [] rectNormal winPixZero failNone pix42 [scrTiny] (some "")).2 ≠
      Except.error (TopError.windowError WinError.notFound) :=
  ⟨(C10_empty_title_all_screens [] rectNormal winPixZero failNone pix42 [scrTiny]).1,
   (C10_empty_title_all_screens [] rectNormal winPixZero failNone pix42 [scrTiny]).2.1,
   (C10_empty_title_all_screens [] rectNormal winPixZero failNone pix42 [scrTiny]).2.2
     WinError.notFound⟩
